import Mathlib

/-!
Shallow embedding of `eth_hist_plot-rs` (`src/main.rs`): the time-series
ingestion (serde decoding of the CoinGecko payload into `Data`/`Datum`)
and the dual-panel chart composition in `main` (axis-bound computation,
line series, annotation marker, legend).  `f64` values are modelled as
`ℚ` (the spec requires NaN never to appear, and `f64::total_cmp` agrees
with the ordinary order on the finite non-NaN values that occur here);
`DateTime<Utc>` timestamps are modelled as epoch milliseconds (`Int`).
-/

/-- JSON values as `serde_json` sees them.  Integer and floating number
tokens are kept distinct because `serde_json` parses `1450` as an
integer token and `1450.0` as a float token, and chrono's
`ts_milliseconds` visitor accepts only the former; numeric payloads are
modelled as rationals. -/
inductive JValue where
  | jnull : JValue
  | jbool : Bool → JValue
  | jint : Int → JValue
  | jfloat : ℚ → JValue
  | jstr : String → JValue
  | jarr : List JValue → JValue
  | jobj : List (String × JValue) → JValue

/-- `struct Datum(#[serde(with = "ts_milliseconds")] DateTime<Utc>, Option<f64>)`
(main.rs:42-46), with its accessors `timestamp` (main.rs:49-51) and
`price` (main.rs:53-55) as fields. -/
structure Datum where
  timestamp : Int
  price : Option ℚ
  deriving DecidableEq

/-- `struct Data` (main.rs:21-26): the three parallel series of the
payload. -/
structure Data where
  prices : List Datum
  market_caps : List Datum
  total_volumes : List Datum
  deriving DecidableEq

/-- Decoding of the timestamp element (serde attribute
`ts_milliseconds`, main.rs:44): chrono's visitor implements only
`visit_i64`/`visit_u64`, so `serde_json` accepts exactly integer number
tokens here and rejects floats, strings, null, etc.  Chrono's
astronomical range check (roughly ±262000 years) is abstracted away; no
input in scope approaches it. -/
def decodeTimestamp : JValue → Except String Int
  | JValue.jint i => Except.ok i
  | _ => Except.error "MalformedSampleError: invalid timestamp"

/-- Decoding of the optional value element (`Option<f64>`, main.rs:45):
`null` decodes to an absent value, and both integer and float number
tokens deserialize to the same `f64`. -/
def decodeValue : JValue → Except String (Option ℚ)
  | JValue.jnull => Except.ok none
  | JValue.jint i => Except.ok (some (i : ℚ))
  | JValue.jfloat q => Except.ok (some q)
  | _ => Except.error "MalformedSampleError: invalid value"

/-- serde's derived deserializer for the two-field tuple struct `Datum`
(main.rs:42-46): the input must be a JSON array of exactly two elements
(too few elements is an `invalid length` error, trailing elements are
rejected by `serde_json`), decoded positionally. -/
def decodeDatum : JValue → Except String Datum
  | JValue.jarr [t, v] =>
      match decodeTimestamp t with
      | Except.error e => Except.error e
      | Except.ok ts =>
          match decodeValue v with
          | Except.error e => Except.error e
          | Except.ok pr => Except.ok ⟨ts, pr⟩
  | _ => Except.error "MalformedSampleError: expected two-element array"

/-- Element-wise decoding of a JSON array of samples, failing on the
first malformed element, as `Vec<Datum>` deserialization does. -/
def decodeSeriesList : List JValue → Except String (List Datum)
  | [] => Except.ok []
  | x :: xs =>
      match decodeDatum x with
      | Except.error e => Except.error e
      | Except.ok d =>
          match decodeSeriesList xs with
          | Except.error e => Except.error e
          | Except.ok ds => Except.ok (d :: ds)

/-- `Vec<Datum>` deserialization: a JSON array whose elements all decode
as `Datum`. -/
def decodeSeries : JValue → Except String (List Datum)
  | JValue.jarr xs => decodeSeriesList xs
  | _ => Except.error "MalformedSampleError: expected array"

/-- serde's derived deserializer for `Data` (main.rs:21-26): a JSON
object that must contain all three fields `prices`, `market_caps`,
`total_volumes` (a missing field is an error; unknown fields are
ignored, which `List.lookup` models; `serde_json` rejects duplicate
fields, abstracted here by taking the first occurrence). -/
def decodeData : JValue → Except String Data
  | JValue.jobj fs =>
      match fs.lookup "prices", fs.lookup "market_caps", fs.lookup "total_volumes" with
      | some p, some m, some t =>
          match decodeSeries p, decodeSeries m, decodeSeries t with
          | Except.ok ps, Except.ok ms, Except.ok ts => Except.ok ⟨ps, ms, ts⟩
          | Except.error e, _, _ => Except.error e
          | _, Except.error e, _ => Except.error e
          | _, _, Except.error e => Except.error e
      | _, _, _ => Except.error "missing field"
  | _ => Except.error "expected object"

/-- Whether a decode or render step failed. -/
def isError {α : Type} : Except String α → Bool
  | Except.error _ => true
  | Except.ok _ => false

/-- Rust's `Iterator::min` over a list (empty iterator gives `None`,
which the source `.unwrap()`s; on ties the first minimal element is
kept, which `min`'s left bias mirrors). -/
def iterMin {α : Type} [LinearOrder α] : List α → Option α
  | [] => none
  | x :: xs => some (xs.foldl min x)

/-- Rust's `Iterator::max` over a list (on ties the last maximal element
is kept, which `max`'s right bias mirrors). -/
def iterMax {α : Type} [LinearOrder α] : List α → Option α
  | [] => none
  | x :: xs => some (xs.foldl max x)

/-- main.rs:96-97 / 154-155: the X-domain is the min/max timestamp over
ALL of the series' samples (`iter().map(Datum::timestamp)`): no filter
on the presence of the value is applied.  `none` models the `.unwrap()`
panic on an empty series. -/
def xBounds (s : List Datum) : Option (Int × Int) :=
  match iterMin (s.map Datum.timestamp), iterMax (s.map Datum.timestamp) with
  | some lo, some hi => some (lo, hi)
  | _, _ => none

/-- Spec-side definition for the refinement comparison in C1, following
the claim's words rather than the source: the X-domain taken over the
valued samples only, so that absent-valued samples contribute no
timestamp. -/
def xBoundsSpec (s : List Datum) : Option (Int × Int) :=
  match iterMin ((s.filterMap fun d => d.price.map fun p => (d.timestamp, p)).map Prod.fst),
        iterMax ((s.filterMap fun d => d.price.map fun p => (d.timestamp, p)).map Prod.fst) with
  | some lo, some hi => some (lo, hi)
  | _, _ => none

/-- main.rs:98-107 / 156-165: the present values of a series,
`iter().filter_map(Datum::price)`. -/
def yValues (s : List Datum) : List ℚ :=
  s.filterMap Datum.price

/-- The Y-domain: min/max by `f64::total_cmp` over the present values
(main.rs:98-107); `none` models the `.unwrap()` panic when the series
has no valued sample. -/
def yBounds (s : List Datum) : Option (ℚ × ℚ) :=
  match iterMin (yValues s), iterMax (yValues s) with
  | some lo, some hi => some (lo, hi)
  | _, _ => none

/-- The per-panel bound computation (main.rs:96-107 and 154-165): both
the X- and the Y-domain must be available; `none` models the fatal
failure the spec names `EmptySeriesError`. -/
def panelBounds (s : List Datum) : Option ((Int × Int) × (ℚ × ℚ)) :=
  match xBounds s, yBounds s with
  | some xb, some yb => some (xb, yb)
  | _, _ => none

/-- main.rs:124-128 / 183-187: the points of the `LineSeries`,
`filter_map(|x| x.price().map(|price| (*x.timestamp(), price)))` —
the valued samples of a series, in stored order. -/
def valuedSamples (s : List Datum) : List (Int × ℚ) :=
  s.filterMap fun d => d.price.map fun p => (d.timestamp, p)

/-- Days from 1970-01-01 to the given Gregorian calendar date, the
civil-calendar arithmetic behind chrono's
`NaiveDate::from_ymd_opt(2022, 9, 15)` (main.rs:131-137). -/
def daysFromCivil (y : Int) (m : Nat) (d : Nat) : Int :=
  let y' : Int := if m ≤ 2 then y - 1 else y
  let era : Int := (if 0 ≤ y' then y' else y' - 399) / 400
  let yoe : Int := y' - era * 400
  let mp : Int := ((m : Int) + 9) % 12
  let doy : Int := (153 * mp + 2) / 5 + (d : Int) - 1
  let doe : Int := yoe * 365 + yoe / 4 - yoe / 100 + doy
  era * 146097 + doe - 719468

/-- main.rs:131-137: `exact_merge_date`, 2022-09-15T06:43:00Z, as epoch
milliseconds. -/
def exact_merge_date : Int :=
  (daysFromCivil 2022 9 15 * 86400 + (6 * 3600 + 43 * 60 + 0)) * 1000

/-- main.rs:138 / 190: `point_data`, the single annotation point
`(exact_merge_date, 1450f64)`, a constant independent of the dataset. -/
def point_data : Int × ℚ :=
  (exact_merge_date, 1450)

/-- The plotters colors used by `main`. -/
inductive PColor where
  | red : PColor
  | blue : PColor
  | black : PColor
  | white : PColor
  deriving DecidableEq

/-- The marker element shape: `Circle` in the source (main.rs:141). -/
inductive MarkerShape where
  | circle : MarkerShape
  deriving DecidableEq

/-- The drawn annotation marker (main.rs:140-146 / 192-198): a size-5
circle at the annotation point in blue with legend label "merge date".
`visible` is modelled from the spec: the drawing backend clips elements
to the panel, so a marker whose coordinate falls outside the computed
domains is drawn without error and simply not visible.  `filled` is
modelled from the spec's "single filled circular marker" (the fill mode
lives inside the plotters style conversion, outside this repository). -/
structure Marker where
  coord : Int × ℚ
  size : Nat
  color : PColor
  shape : MarkerShape
  filled : Bool
  label : String
  visible : Bool
  deriving DecidableEq

/-- Everything one panel contributes to the canvas (main.rs:109-152 for
panel 1, main.rs:167-204 for panel 2): caption and left margin from the
`ChartBuilder` calls, computed bounds, the red line through the valued
samples, the annotation marker, and the legend entries in draw order. -/
structure PanelOutput where
  caption : String
  marginLeft : Nat
  bounds : (Int × Int) × (ℚ × ℚ)
  line : List (Int × ℚ)
  lineColor : PColor
  marker : Marker
  legend : List String
  deriving DecidableEq

/-- One panel's computation and drawing, parametrized exactly by what
differs between the two call sites (series, caption, series label, left
margin) plus the annotation point.  A series whose bounds cannot be
computed aborts the panel (`EmptySeriesError`); drawing itself raises no
error for out-of-domain elements (modelled from the spec: the backend
clips). -/
def renderPanel (ann : Int × ℚ) (s : List Datum) (cap lbl : String) (ml : Nat) :
    Except String PanelOutput :=
  match panelBounds s with
  | none => Except.error "EmptySeriesError"
  | some b =>
      Except.ok
        ⟨cap, ml, b, valuedSamples s, PColor.red,
          ⟨ann, 5, PColor.blue, MarkerShape.circle, true, "merge date",
            decide (b.1.1 ≤ ann.1 ∧ ann.1 ≤ b.1.2 ∧ b.2.1 ≤ ann.2 ∧ ann.2 ≤ b.2.2)⟩,
          [lbl, "merge date"]⟩

/-- Panel 1 (main.rs:96-152): the `prices` series, caption "ETH price",
uniform margin 10, line label "ETH price in USD". -/
def panel1 (d : Data) : Except String PanelOutput :=
  renderPanel point_data d.prices "ETH price" "ETH price in USD" 10

/-- Panel 2 (main.rs:154-204): the `market_caps` series, caption
"ETH market cap", left margin 55, line label "ETH market cap in USD". -/
def panel2 (d : Data) : Except String PanelOutput :=
  renderPanel point_data d.market_caps "ETH market cap" "ETH market cap in USD" 55

/-- The completed two-panel drawing. -/
structure ChartOutput where
  p1 : PanelOutput
  p2 : PanelOutput
  deriving DecidableEq

/-- `main`'s drawing pipeline in program order: panel 1 entirely, then
panel 2; a failing panel aborts the run (main.rs:92-206).  The
`total_volumes` series is never read after parsing. -/
def renderChart (d : Data) : Except String ChartOutput :=
  match panel1 d with
  | Except.error e => Except.error e
  | Except.ok p1 =>
      match panel2 d with
      | Except.error e => Except.error e
      | Except.ok p2 => Except.ok ⟨p1, p2⟩

/-- The end-to-end example series of the spec:
`[[1000,10.0],[2000,null],[3000,30.0]]`. -/
def sampleSeries : List Datum :=
  [⟨1000, some 10⟩, ⟨2000, none⟩, ⟨3000, some 30⟩]

/-- A small concrete dataset used to instantiate the theorems. -/
def sampleData : Data :=
  ⟨sampleSeries, [⟨1000, some 5⟩], [⟨1000, some 7⟩]⟩

/-- The same dataset with different `total_volumes` contents. -/
def sampleDataTV : Data :=
  ⟨sampleSeries, [⟨1000, some 5⟩], [⟨4000, none⟩, ⟨5000, some 9⟩]⟩

/-- The concrete series refuting C1: one absent-valued sample at
timestamp 1000 followed by a valued sample at timestamp 2000. -/
def cexSeries : List Datum :=
  [⟨1000, none⟩, ⟨2000, some 5⟩]

/-- The panel-1 output for `sampleData`, written out in full. -/
def samplePanel1 : PanelOutput :=
  ⟨"ETH price", 10, ((1000, 3000), (10, 30)), [(1000, 10), (3000, 30)], PColor.red,
    ⟨point_data, 5, PColor.blue, MarkerShape.circle, true, "merge date", false⟩,
    ["ETH price in USD", "merge date"]⟩

/-- The panel-2 output for `sampleData`, written out in full. -/
def samplePanel2 : PanelOutput :=
  ⟨"ETH market cap", 55, ((1000, 1000), (5, 5)), [(1000, 5)], PColor.red,
    ⟨point_data, 5, PColor.blue, MarkerShape.circle, true, "merge date", false⟩,
    ["ETH market cap in USD", "merge date"]⟩

/-- The full chart output for `sampleData`. -/
def sampleChart : ChartOutput :=
  ⟨samplePanel1, samplePanel2⟩

deriving instance DecidableEq for Except

lemma foldl_min_le_init {α : Type} [LinearOrder α] (xs : List α) (a : α) :
    xs.foldl min a ≤ a := by
  induction xs generalizing a with
  | nil => exact le_refl a
  | cons x xs ih => exact le_trans (ih (min a x)) (min_le_left a x)

lemma foldl_min_le_mem {α : Type} [LinearOrder α] {xs : List α} {x : α}
    (h : x ∈ xs) : ∀ a : α, xs.foldl min a ≤ x := by
  induction xs with
  | nil => cases h
  | cons y ys ih =>
    intro a
    rcases List.mem_cons.mp h with rfl | h'
    · exact le_trans (foldl_min_le_init ys (min a x)) (min_le_right a x)
    · exact ih h' (min a y)

lemma foldl_min_mem {α : Type} [LinearOrder α] (xs : List α) (a : α) :
    xs.foldl min a = a ∨ xs.foldl min a ∈ xs := by
  induction xs generalizing a with
  | nil => exact Or.inl rfl
  | cons y ys ih =>
    rcases ih (min a y) with h | h
    · rcases min_choice a y with h' | h'
      · exact Or.inl (by rw [List.foldl_cons, h, h'])
      · exact Or.inr (by rw [List.foldl_cons, h, h']; exact List.mem_cons_self y ys)
    · exact Or.inr (List.mem_cons_of_mem y h)

lemma le_foldl_max_init {α : Type} [LinearOrder α] (xs : List α) (a : α) :
    a ≤ xs.foldl max a := by
  induction xs generalizing a with
  | nil => exact le_refl a
  | cons x xs ih => exact le_trans (le_max_left a x) (ih (max a x))

lemma le_foldl_max_mem {α : Type} [LinearOrder α] {xs : List α} {x : α}
    (h : x ∈ xs) : ∀ a : α, x ≤ xs.foldl max a := by
  induction xs with
  | nil => cases h
  | cons y ys ih =>
    intro a
    rcases List.mem_cons.mp h with rfl | h'
    · exact le_trans (le_max_right a x) (le_foldl_max_init ys (max a x))
    · exact ih h' (max a y)

lemma foldl_max_mem {α : Type} [LinearOrder α] (xs : List α) (a : α) :
    xs.foldl max a = a ∨ xs.foldl max a ∈ xs := by
  induction xs generalizing a with
  | nil => exact Or.inl rfl
  | cons y ys ih =>
    rcases ih (max a y) with h | h
    · rcases max_choice a y with h' | h'
      · exact Or.inl (by rw [List.foldl_cons, h, h'])
      · exact Or.inr (by rw [List.foldl_cons, h, h']; exact List.mem_cons_self y ys)
    · exact Or.inr (List.mem_cons_of_mem y h)

lemma iterMin_isSome {α : Type} [LinearOrder α] {xs : List α} (h : xs ≠ []) :
    ∃ m, iterMin xs = some m := by
  cases xs with
  | nil => exact absurd rfl h
  | cons y ys => exact ⟨ys.foldl min y, rfl⟩

lemma iterMax_isSome {α : Type} [LinearOrder α] {xs : List α} (h : xs ≠ []) :
    ∃ m, iterMax xs = some m := by
  cases xs with
  | nil => exact absurd rfl h
  | cons y ys => exact ⟨ys.foldl max y, rfl⟩

lemma iterMin_spec {α : Type} [LinearOrder α] {xs : List α} {m : α}
    (h : iterMin xs = some m) : m ∈ xs ∧ ∀ x ∈ xs, m ≤ x := by
  cases xs with
  | nil => cases h
  | cons y ys =>
    have hm : ys.foldl min y = m := by simpa [iterMin] using h
    constructor
    · rcases foldl_min_mem ys y with h' | h'
      · rw [← hm, h']; exact List.mem_cons_self y ys
      · rw [← hm]; exact List.mem_cons_of_mem y h'
    · intro x hx
      rcases List.mem_cons.mp hx with rfl | hx'
      · rw [← hm]; exact foldl_min_le_init ys x
      · rw [← hm]; exact foldl_min_le_mem hx' y

lemma iterMax_spec {α : Type} [LinearOrder α] {xs : List α} {m : α}
    (h : iterMax xs = some m) : m ∈ xs ∧ ∀ x ∈ xs, x ≤ m := by
  cases xs with
  | nil => cases h
  | cons y ys =>
    have hm : ys.foldl max y = m := by simpa [iterMax] using h
    constructor
    · rcases foldl_max_mem ys y with h' | h'
      · rw [← hm, h']; exact List.mem_cons_self y ys
      · rw [← hm]; exact List.mem_cons_of_mem y h'
    · intro x hx
      rcases List.mem_cons.mp hx with rfl | hx'
      · rw [← hm]; exact le_foldl_max_init ys x
      · rw [← hm]; exact le_foldl_max_mem hx' y

lemma iterMin_append {α : Type} [LinearOrder α] {xs : List α} {m : α}
    (h : iterMin xs = some m) (v : α) :
    iterMin (xs ++ [v]) = some (min m v) := by
  cases xs with
  | nil => cases h
  | cons y ys =>
    have hm : ys.foldl min y = m := by simpa [iterMin] using h
    show some ((ys ++ [v]).foldl min y) = some (min m v)
    rw [List.foldl_append, hm]
    rfl

lemma iterMax_append {α : Type} [LinearOrder α] {xs : List α} {m : α}
    (h : iterMax xs = some m) (v : α) :
    iterMax (xs ++ [v]) = some (max m v) := by
  cases xs with
  | nil => cases h
  | cons y ys =>
    have hm : ys.foldl max y = m := by simpa [iterMax] using h
    show some ((ys ++ [v]).foldl max y) = some (max m v)
    rw [List.foldl_append, hm]
    rfl

lemma yValues_eq_map (s : List Datum) :
    yValues s = (valuedSamples s).map Prod.snd := by
  induction s with
  | nil => rfl
  | cons d s ih =>
    cases hd : d.price with
    | none =>
      simp only [yValues, valuedSamples, List.filterMap_cons, hd, Option.map_none'] at ih ⊢
      exact ih
    | some v =>
      simp only [yValues, valuedSamples, List.filterMap_cons, hd, Option.map_some',
        List.map_cons] at ih ⊢
      exact congrArg (v :: ·) ih

lemma valuedSamples_sublist (s : List Datum) :
    List.Sublist ((valuedSamples s).map fun p => Datum.mk p.1 (some p.2)) s := by
  induction s with
  | nil => exact List.Sublist.refl []
  | cons d s ih =>
    cases hd : d.price with
    | none =>
      have h1 : valuedSamples (d :: s) = valuedSamples s := by
        simp [valuedSamples, List.filterMap_cons, hd]
      rw [h1]
      exact List.Sublist.cons d ih
    | some v =>
      have h1 : valuedSamples (d :: s) = (d.timestamp, v) :: valuedSamples s := by
        simp [valuedSamples, List.filterMap_cons, hd]
      have h2 : Datum.mk d.timestamp (some v) = d := by rw [← hd]
      rw [h1, List.map_cons]
      show List.Sublist (Datum.mk d.timestamp (some v) :: _) (d :: s)
      rw [h2]
      exact List.Sublist.cons₂ d ih

lemma renderPanel_marker {ann : Int × ℚ} {s : List Datum} {cap lbl : String}
    {ml : Nat} {out : PanelOutput}
    (h : renderPanel ann s cap lbl ml = Except.ok out) :
    out.marker.coord = ann ∧ out.marker.size = 5 ∧
    out.marker.color = PColor.blue ∧ out.marker.shape = MarkerShape.circle ∧
    out.marker.filled = true ∧ out.marker.label = "merge date" ∧
    out.legend = [lbl, "merge date"] := by
  cases hb : panelBounds s with
  | none => simp [renderPanel, hb] at h
  | some b =>
    simp only [renderPanel, hb, Except.ok.injEq] at h
    subst h
    exact ⟨rfl, rfl, rfl, rfl, rfl, rfl, rfl⟩

/-- C1 counterexample: the source computes the X-domain over ALL samples
(main.rs:96-97), so the absent-valued sample at timestamp 1000 does
contribute its timestamp: the code yields [1000, 2000] where the claim
predicts [2000, 2000] over the valued samples. -/
theorem xBounds_uses_absent_timestamps :
    xBounds cexSeries = some (1000, 2000) ∧
    xBoundsSpec cexSeries = some (2000, 2000) ∧
    xBounds cexSeries ≠ xBoundsSpec cexSeries := by
  refine ⟨rfl, rfl, ?_⟩
  decide

/-- C1 (amended): for every non-empty series, the computed X-domain is
[minimum timestamp, maximum timestamp] over ALL of the panel's samples,
absent-valued samples included. -/
theorem xBounds_minmax_all_samples (s : List Datum) (h : s ≠ []) :
    ∃ lo hi, xBounds s = some (lo, hi) ∧
      (∃ d ∈ s, d.timestamp = lo) ∧ (∃ d ∈ s, d.timestamp = hi) ∧
      ∀ d ∈ s, lo ≤ d.timestamp ∧ d.timestamp ≤ hi := by
  have hne : s.map Datum.timestamp ≠ [] := by
    simpa using h
  obtain ⟨lo, hlo⟩ := iterMin_isSome hne
  obtain ⟨hi, hhi⟩ := iterMax_isSome hne
  obtain ⟨hlomem, hlole⟩ := iterMin_spec hlo
  obtain ⟨hhimem, hhile⟩ := iterMax_spec hhi
  refine ⟨lo, hi, by simp [xBounds, hlo, hhi], ?_, ?_, ?_⟩
  · obtain ⟨d, hd, hdt⟩ := List.mem_map.mp hlomem
    exact ⟨d, hd, hdt⟩
  · obtain ⟨d, hd, hdt⟩ := List.mem_map.mp hhimem
    exact ⟨d, hd, hdt⟩
  · intro d hd
    exact ⟨hlole _ (List.mem_map_of_mem _ hd), hhile _ (List.mem_map_of_mem _ hd)⟩

/-- C1 witness: the amended statement instantiated at the concrete
two-sample series. -/
theorem xBounds_minmax_all_samples_witness :
    cexSeries ≠ [] ∧
    (∃ lo hi, xBounds cexSeries = some (lo, hi) ∧
      (∃ d ∈ cexSeries, d.timestamp = lo) ∧ (∃ d ∈ cexSeries, d.timestamp = hi) ∧
      ∀ d ∈ cexSeries, lo ≤ d.timestamp ∧ d.timestamp ≤ hi) :=
  ⟨by decide, xBounds_minmax_all_samples cexSeries (by decide)⟩

/-- C2: a series with zero valued samples admits no panel bounds (the
fatal EmptySeriesError); panel 1 reads only `prices`, so its
computation is unaffected by the other series; and an empty
`market_caps` series makes panel 2 construction fail. -/
theorem empty_series_fails_and_panels_independent :
    (∀ s : List Datum, valuedSamples s = [] → panelBounds s = none) ∧
    (∀ p mc mc' tv tv' : List Datum,
      panel1 ⟨p, mc, tv⟩ = panel1 ⟨p, mc', tv'⟩) ∧
    (∀ d : Data, d.market_caps = [] →
      panel2 d = Except.error "EmptySeriesError") := by
  refine ⟨?_, ?_, ?_⟩
  · intro s h
    have hy : yValues s = [] := by rw [yValues_eq_map, h]; rfl
    have hyb : yBounds s = none := by simp [yBounds, hy, iterMin]
    cases hx : xBounds s <;> simp [panelBounds, hx, hyb]
  · intro p mc mc' tv tv'
    rfl
  · intro d h
    have h2 : panel2 d =
        renderPanel point_data [] "ETH market cap" "ETH market cap in USD" 55 := by
      rw [panel2, h]
    rw [h2]
    rfl

/-- C2 witness: a series of one absent-valued sample has no bounds, and
a dataset with non-empty prices but empty market_caps fails exactly at
panel 2. -/
theorem empty_series_witness :
    valuedSamples [(⟨1000, none⟩ : Datum)] = [] ∧
    panelBounds [(⟨1000, none⟩ : Datum)] = none ∧
    (⟨sampleSeries, [], []⟩ : Data).market_caps = [] ∧
    panel2 ⟨sampleSeries, [], []⟩ = Except.error "EmptySeriesError" ∧
    panel1 ⟨sampleSeries, [], []⟩ = panel1 ⟨sampleSeries, [⟨1000, some 5⟩], []⟩ :=
  ⟨rfl, empty_series_fails_and_panels_independent.1 _ rfl,
   rfl, empty_series_fails_and_panels_independent.2.2 _ rfl,
   empty_series_fails_and_panels_independent.2.1 sampleSeries [] [⟨1000, some 5⟩] [] []⟩

/-- C3: decoding fails when the first element is not an integer
timestamp, or when the array does not have exactly two elements (in
particular on the one-element array [1663224180000]); and
`[ts, null]` decodes to a sample with an absent value, never an
error. -/
theorem decodeDatum_malformed_and_null_ok :
    (∀ t v : JValue, (∀ i : Int, t ≠ JValue.jint i) →
      isError (decodeDatum (JValue.jarr [t, v])) = true) ∧
    (∀ xs : List JValue, xs.length ≠ 2 →
      isError (decodeDatum (JValue.jarr xs)) = true) ∧
    isError (decodeDatum (JValue.jarr [JValue.jint 1663224180000])) = true ∧
    (∀ ts : Int, decodeDatum (JValue.jarr [JValue.jint ts, JValue.jnull]) =
      Except.ok ⟨ts, none⟩) := by
  refine ⟨?_, ?_, rfl, fun ts => rfl⟩
  · intro t v h
    cases t with
    | jnull => rfl
    | jbool b => rfl
    | jint i => exact absurd rfl (h i)
    | jfloat q => rfl
    | jstr s => rfl
    | jarr xs => rfl
    | jobj fs => rfl
  · intro xs h
    match xs with
    | [] => rfl
    | [a] => rfl
    | [a, b] => exact absurd rfl h
    | a :: b :: c :: rest => rfl

/-- C3 witness: a null timestamp element and a one-element array are
rejected; a null value element decodes to an absent value. -/
theorem decodeDatum_malformed_witness :
    (∀ i : Int, JValue.jnull ≠ JValue.jint i) ∧
    isError (decodeDatum (JValue.jarr [JValue.jnull, JValue.jnull])) = true ∧
    ([JValue.jint 5] : List JValue).length ≠ 2 ∧
    isError (decodeDatum (JValue.jarr [JValue.jint 5])) = true ∧
    decodeDatum (JValue.jarr [JValue.jint 7, JValue.jnull]) = Except.ok ⟨7, none⟩ :=
  ⟨fun i h => JValue.noConfusion h,
   decodeDatum_malformed_and_null_ok.1 JValue.jnull JValue.jnull
     (fun i h => JValue.noConfusion h),
   by decide,
   decodeDatum_malformed_and_null_ok.2.1 [JValue.jint 5] (by decide),
   decodeDatum_malformed_and_null_ok.2.2.2 7⟩

/-- C4: `valuedSamples` is exactly the order-preserving subsequence of
the samples whose value is present: it is no longer than the sample
list, each of its elements appears in the sample list with matching
timestamp and value, and re-wrapping its elements as samples yields a
sublist of the sample list. -/
theorem valuedSamples_subsequence (s : List Datum) :
    (valuedSamples s).length ≤ s.length ∧
    (∀ p ∈ valuedSamples s, ∃ d ∈ s, d.timestamp = p.1 ∧ d.price = some p.2) ∧
    List.Sublist ((valuedSamples s).map fun p => Datum.mk p.1 (some p.2)) s := by
  refine ⟨?_, ?_, valuedSamples_sublist s⟩
  · simpa [valuedSamples] using
      List.length_filterMap_le (fun d : Datum => d.price.map fun p => (d.timestamp, p)) s
  · intro p hp
    have hmem : Datum.mk p.1 (some p.2) ∈ s :=
      (valuedSamples_sublist s).subset (List.mem_map_of_mem _ hp)
    exact ⟨⟨p.1, some p.2⟩, hmem, rfl, rfl⟩

/-- C4 witness: the spec's end-to-end series, with the valued sample
(1000, 10) traced back to the sample list. -/
theorem valuedSamples_subsequence_witness :
    ((1000, (10 : ℚ)) ∈ valuedSamples sampleSeries) ∧
    (∃ d ∈ sampleSeries, d.timestamp = 1000 ∧ d.price = some 10) :=
  ⟨by decide, (valuedSamples_subsequence sampleSeries).2.1 (1000, 10) (by decide)⟩

/-- C5: for a series with at least one valued sample, the computed
Y-domain is exactly [minimum value, maximum value] over the present
values only (absent values are dropped by the filter, not read as
zero). -/
theorem yBounds_minmax_present_values (s : List Datum)
    (h : valuedSamples s ≠ []) :
    ∃ lo hi, yBounds s = some (lo, hi) ∧
      lo ∈ yValues s ∧ hi ∈ yValues s ∧
      ∀ v ∈ yValues s, lo ≤ v ∧ v ≤ hi := by
  have hy : yValues s ≠ [] := by
    rw [yValues_eq_map]
    simpa using h
  obtain ⟨lo, hlo⟩ := iterMin_isSome hy
  obtain ⟨hi, hhi⟩ := iterMax_isSome hy
  obtain ⟨hlomem, hlole⟩ := iterMin_spec hlo
  obtain ⟨hhimem, hhile⟩ := iterMax_spec hhi
  exact ⟨lo, hi, by simp [yBounds, hlo, hhi], hlomem, hhimem,
    fun v hv => ⟨hlole v hv, hhile v hv⟩⟩

/-- C5 witness: for the spec's end-to-end series
[[1000,10],[2000,null],[3000,30]] the valued samples are
[(1000,10),(3000,30)], the bounds are X [1000,3000] and Y [10,30], and
the line draws exactly those two points. -/
theorem yBounds_minmax_present_values_witness :
    valuedSamples sampleSeries = [(1000, 10), (3000, 30)] ∧
    xBounds sampleSeries = some (1000, 3000) ∧
    yBounds sampleSeries = some (10, 30) ∧
    valuedSamples sampleSeries ≠ [] ∧
    (∃ lo hi, yBounds sampleSeries = some (lo, hi) ∧
      lo ∈ yValues sampleSeries ∧ hi ∈ yValues sampleSeries ∧
      ∀ v ∈ yValues sampleSeries, lo ≤ v ∧ v ≤ hi) :=
  ⟨rfl, rfl, rfl, by decide, yBounds_minmax_present_values sampleSeries (by decide)⟩

/-- C6: appending an absent-valued sample never changes the Y-bound;
appending a valued sample whose value is below the minimum (resp. above
the maximum) widens that end of the Y-bound to the new value. -/
theorem yBounds_monotone_insertion :
    (∀ (s : List Datum) (t : Int), yBounds (s ++ [⟨t, none⟩]) = yBounds s) ∧
    (∀ (s : List Datum) (t : Int) (v lo hi : ℚ), yBounds s = some (lo, hi) →
      (v < lo → yBounds (s ++ [⟨t, some v⟩]) = some (v, hi)) ∧
      (hi < v → yBounds (s ++ [⟨t, some v⟩]) = some (lo, v))) := by
  constructor
  · intro s t
    have h1 : yValues (s ++ [⟨t, none⟩]) = yValues s := by
      simp only [yValues, List.filterMap_append]
      have h2 : List.filterMap Datum.price [(⟨t, none⟩ : Datum)] = [] := rfl
      rw [h2, List.append_nil]
    simp only [yBounds, h1]
  · intro s t v lo hi h
    have hys : yValues (s ++ [⟨t, some v⟩]) = yValues s ++ [v] := by
      simp only [yValues, List.filterMap_append]
      have h2 : List.filterMap Datum.price [(⟨t, some v⟩ : Datum)] = [v] := rfl
      rw [h2]
    have hmm : iterMin (yValues s) = some lo ∧ iterMax (yValues s) = some hi := by
      cases hmn : iterMin (yValues s) with
      | none => simp [yBounds, hmn] at h
      | some a =>
        cases hmx : iterMax (yValues s) with
        | none => simp [yBounds, hmn, hmx] at h
        | some b =>
          simp only [yBounds, hmn, hmx, Option.some.injEq, Prod.mk.injEq] at h
          exact ⟨by rw [h.1], by rw [h.2]⟩
    obtain ⟨hmn, hmx⟩ := hmm
    have hlohi : lo ≤ hi := by
      obtain ⟨hmem, -⟩ := iterMin_spec hmn
      obtain ⟨-, hle⟩ := iterMax_spec hmx
      exact hle lo hmem
    constructor
    · intro hv
      have h1 : iterMin (yValues s ++ [v]) = some (min lo v) := iterMin_append hmn v
      have h2 : iterMax (yValues s ++ [v]) = some (max hi v) := iterMax_append hmx v
      have e1 : min lo v = v := min_eq_right hv.le
      have e2 : max hi v = hi := max_eq_left (le_trans hv.le hlohi)
      simp [yBounds, hys, h1, h2, e1, e2]
    · intro hv
      have h1 : iterMin (yValues s ++ [v]) = some (min lo v) := iterMin_append hmn v
      have h2 : iterMax (yValues s ++ [v]) = some (max hi v) := iterMax_append hmx v
      have e1 : min lo v = lo := min_eq_left (le_trans hlohi hv.le)
      have e2 : max hi v = v := max_eq_right hv.le
      simp [yBounds, hys, h1, h2, e1, e2]

/-- C6 witness: on the end-to-end series (Y-bound [10, 30]), appending
value 5 drops the lower end to 5, appending value 40 raises the upper
end to 40, and appending an absent value changes nothing. -/
theorem yBounds_monotone_insertion_witness :
    yBounds sampleSeries = some (10, 30) ∧
    (5 : ℚ) < 10 ∧ (30 : ℚ) < 40 ∧
    yBounds (sampleSeries ++ [⟨4000, some 5⟩]) = some (5, 30) ∧
    yBounds (sampleSeries ++ [⟨4000, some 40⟩]) = some (10, 40) ∧
    yBounds (sampleSeries ++ [⟨4000, none⟩]) = yBounds sampleSeries :=
  ⟨rfl, by decide, by decide,
   (yBounds_monotone_insertion.2 sampleSeries 4000 5 10 30 rfl).1 (by decide),
   (yBounds_monotone_insertion.2 sampleSeries 4000 40 10 30 rfl).2 (by decide),
   yBounds_monotone_insertion.1 sampleSeries 4000⟩

/-- C7: once a panel's bounds are computed, rendering succeeds for ANY
annotation point; when the annotation timestamp lies outside the
X-domain the marker is still drawn with no error, it is simply not
visible, and the legend still lists exactly the series label and
"merge date". -/
theorem marker_outside_xdomain_no_error (ann : Int × ℚ) (s : List Datum)
    (cap lbl : String) (ml : Nat) (b : (Int × Int) × (ℚ × ℚ))
    (hb : panelBounds s = some b) (hout : ann.1 < b.1.1 ∨ b.1.2 < ann.1) :
    ∃ out, renderPanel ann s cap lbl ml = Except.ok out ∧
      out.marker.coord = ann ∧ out.marker.visible = false ∧
      out.legend = [lbl, "merge date"] := by
  simp only [renderPanel, hb]
  refine ⟨_, rfl, rfl, ?_, rfl⟩
  rw [decide_eq_false_iff_not]
  rintro ⟨h1, h2, -, -⟩
  rcases hout with h | h
  · exact absurd h1 (not_le.mpr h)
  · exact absurd h2 (not_le.mpr h)

/-- C7 witness: an annotation at timestamp 5000, outside the sample
series' X-domain [1000, 3000], renders without error, invisibly, with
the legend unchanged. -/
theorem marker_outside_xdomain_witness :
    panelBounds sampleSeries = some ((1000, 3000), (10, 30)) ∧
    (((5000 : Int), (1 : ℚ)).1 < ((1000 : Int), (3000 : Int)).1 ∨
      ((1000 : Int), (3000 : Int)).2 < ((5000 : Int), (1 : ℚ)).1) ∧
    (∃ out, renderPanel (5000, 1) sampleSeries "ETH price" "ETH price in USD" 10 =
        Except.ok out ∧
      out.marker.coord = (5000, 1) ∧ out.marker.visible = false ∧
      out.legend = ["ETH price in USD", "merge date"]) :=
  ⟨rfl, Or.inr (by decide),
   marker_outside_xdomain_no_error (5000, 1) sampleSeries "ETH price"
     "ETH price in USD" 10 ((1000, 3000), (10, 30)) rfl (Or.inr (by decide))⟩

/-- C8: the annotation point is the fixed constant pair
(2022-09-15T06:43:00Z, i.e. epoch-millisecond 1663224180000, value
1450), independent of the dataset, and on each of the two panels it is
drawn as a single size-5 filled blue circular marker with legend label
"merge date". -/
theorem merge_marker_constant (d : Data) (o : ChartOutput)
    (h : renderChart d = Except.ok o) :
    exact_merge_date = 1663224180000 ∧
    o.p1.marker.coord = (1663224180000, 1450) ∧
    o.p2.marker.coord = (1663224180000, 1450) ∧
    o.p1.marker.color = PColor.blue ∧ o.p2.marker.color = PColor.blue ∧
    o.p1.marker.shape = MarkerShape.circle ∧ o.p2.marker.shape = MarkerShape.circle ∧
    o.p1.marker.filled = true ∧ o.p2.marker.filled = true ∧
    o.p1.marker.size = 5 ∧ o.p2.marker.size = 5 ∧
    o.p1.marker.label = "merge date" ∧ o.p2.marker.label = "merge date" := by
  have hmd : exact_merge_date = 1663224180000 := by decide
  have hpd : point_data = ((1663224180000 : Int), (1450 : ℚ)) := by
    rw [point_data, hmd]
  cases h1 : panel1 d with
  | error e => simp [renderChart, h1] at h
  | ok q1 =>
    cases h2 : panel2 d with
    | error e => simp [renderChart, h1, h2] at h
    | ok q2 =>
      simp only [renderChart, h1, h2, Except.ok.injEq] at h
      subst h
      obtain ⟨c1, s1, col1, sh1, f1, l1, -⟩ := renderPanel_marker h1
      obtain ⟨c2, s2, col2, sh2, f2, l2, -⟩ := renderPanel_marker h2
      rw [hpd] at c1 c2
      exact ⟨hmd, c1, c2, col1, col2, sh1, sh2, f1, f2, s1, s2, l1, l2⟩

/-- C8 witness: the constant marker on both panels of the concrete
sample dataset. -/
theorem merge_marker_constant_witness :
    renderChart sampleData = Except.ok sampleChart ∧
    (exact_merge_date = 1663224180000 ∧
      sampleChart.p1.marker.coord = (1663224180000, 1450) ∧
      sampleChart.p2.marker.coord = (1663224180000, 1450) ∧
      sampleChart.p1.marker.color = PColor.blue ∧
      sampleChart.p2.marker.color = PColor.blue ∧
      sampleChart.p1.marker.shape = MarkerShape.circle ∧
      sampleChart.p2.marker.shape = MarkerShape.circle ∧
      sampleChart.p1.marker.filled = true ∧ sampleChart.p2.marker.filled = true ∧
      sampleChart.p1.marker.size = 5 ∧ sampleChart.p2.marker.size = 5 ∧
      sampleChart.p1.marker.label = "merge date" ∧
      sampleChart.p2.marker.label = "merge date") :=
  ⟨by decide, merge_marker_constant sampleData sampleChart (by decide)⟩

/-- C9: the raw arrays [1663224180000, 1450.0] (float token) and
[1663224180000, 1450] (integer token) decode to equal samples, both
with the present value 1450. -/
theorem decode_int_and_float_value_equal :
    decodeDatum (JValue.jarr [JValue.jint 1663224180000, JValue.jfloat 1450]) =
      decodeDatum (JValue.jarr [JValue.jint 1663224180000, JValue.jint 1450]) ∧
    decodeDatum (JValue.jarr [JValue.jint 1663224180000, JValue.jfloat 1450]) =
      Except.ok ⟨1663224180000, some 1450⟩ := by
  constructor <;> decide

/-- C10: the rendered chart depends only on `prices` and `market_caps`,
never on the contents of `total_volumes`; yet a payload whose
`total_volumes` field is missing, or present but malformed, fails to
parse. -/
theorem render_ignores_total_volumes :
    (∀ d1 d2 : Data, d1.prices = d2.prices → d1.market_caps = d2.market_caps →
      renderChart d1 = renderChart d2) ∧
    (∀ fs : List (String × JValue), fs.lookup "total_volumes" = none →
      isError (decodeData (JValue.jobj fs)) = true) ∧
    (∀ (fs : List (String × JValue)) (tv : JValue),
      fs.lookup "total_volumes" = some tv → isError (decodeSeries tv) = true →
      isError (decodeData (JValue.jobj fs)) = true) := by
  refine ⟨?_, ?_, ?_⟩
  · intro d1 d2 h1 h2
    simp [renderChart, panel1, panel2, h1, h2]
  · intro fs h
    cases hp : fs.lookup "prices" with
    | none => simp [decodeData, hp, h, isError]
    | some p =>
      cases hm : fs.lookup "market_caps" with
      | none => simp [decodeData, hp, hm, h, isError]
      | some m => simp [decodeData, hp, hm, h, isError]
  · intro fs tv hl he
    cases hp : fs.lookup "prices" with
    | none => simp [decodeData, hp, isError]
    | some p =>
      cases hm : fs.lookup "market_caps" with
      | none => simp [decodeData, hp, hm, isError]
      | some m =>
        cases hps : decodeSeries p with
        | error e => simp [decodeData, hp, hm, hl, hps, isError]
        | ok ps =>
          cases hms : decodeSeries m with
          | error e => simp [decodeData, hp, hm, hl, hps, hms, isError]
          | ok ms =>
            cases hts : decodeSeries tv with
            | error e => simp [decodeData, hp, hm, hl, hps, hms, hts, isError]
            | ok ts =>
              rw [hts] at he
              simp [isError] at he

/-- C10 witness: two payloads differing only in `total_volumes` render
identically, and an object without a `total_volumes` field is
rejected. -/
theorem render_ignores_total_volumes_witness :
    sampleData.prices = sampleDataTV.prices ∧
    sampleData.market_caps = sampleDataTV.market_caps ∧
    renderChart sampleData = renderChart sampleDataTV ∧
    ([("prices", JValue.jarr []), ("market_caps", JValue.jarr [])] :
        List (String × JValue)).lookup "total_volumes" = none ∧
    isError (decodeData (JValue.jobj
      [("prices", JValue.jarr []), ("market_caps", JValue.jarr [])])) = true :=
  ⟨rfl, rfl, render_ignores_total_volumes.1 sampleData sampleDataTV rfl rfl,
   rfl, render_ignores_total_volumes.2.1 _ rfl⟩
